import Mathlib

/-!
Shallow embedding of the klangscribe orchestration core
(`klangscribe_orchestration/defs`): the directory claim/processing state
machine (`resources/directory_processing.py`), the ingestion pipeline
(`jobs/collection.py`), the watch-directory poller (`sensors.py`), and the
deterministic manifest builder (`assets/manifest_assets.py`).

Relational tables are embedded as Lean lists of records (row order = insertion
order); SQL timestamps as integers (seconds) for the claim-state table and as a
calendar record for `directory_metadata.uploaded_at` (which is only ever
formatted with `strftime`).  Python `list.sort(key=..., reverse=...)` is a
stable sort and is embedded as `List.insertionSort` with the corresponding
total preorder (Mathlib's `insertionSort` is stable in the same sense:
among elements whose keys compare equal, the original order is kept).
-/

namespace KlangScribe

/-! ### Python string primitives used by the source -/

/-- The whitespace characters removed by Python's `str.strip()`
(ASCII subset, which is all the source's data can contain). -/
def pyIsSpace (c : Char) : Bool :=
  c == ' ' || c == '\t' || c == '\n' || c == '\r' || c == '\x0b' || c == '\x0c'

/-- `str.strip()` on a character list: drop whitespace at both ends. -/
def stripChars (cs : List Char) : List Char :=
  ((cs.dropWhile pyIsSpace).reverse.dropWhile pyIsSpace).reverse

/-- Python `str.strip()`. -/
def pyStrip (s : String) : String :=
  ⟨stripChars s.data⟩

/-- Python `str.lower()` (ASCII case mapping, as used on file names). -/
def pyLower (s : String) : String :=
  ⟨s.data.map Char.toLower⟩

/-- Python truthiness of `dict.get("...")` on an optional string:
`None` and the empty string are falsy. -/
def pyTruthyOpt : Option String → Bool
  | none => false
  | some s => s != ""

/-- Python `str(x)` on an optional string: `str(None) = "None"`. -/
def strOfOptStr : Option String → String
  | none => "None"
  | some s => s

/-! ### Python string and tuple comparison

Python compares strings lexicographically by code point and tuples
component-wise; these boolean comparators embed that order. -/

/-- Python `<=` on strings, as character lists: lexicographic by code point. -/
def listLeB : List Char → List Char → Bool
  | [], _ => true
  | _ :: _, [] => false
  | a :: as, b :: bs =>
    if a.toNat < b.toNat then true
    else if b.toNat < a.toNat then false
    else listLeB as bs

/-- Python `<=` on strings. -/
def strLeB (s t : String) : Bool :=
  listLeB s.data t.data

/-- Python `<` on strings (the strict part of the total order `strLeB`). -/
def strLtB (s t : String) : Bool :=
  !(listLeB t.data s.data)

theorem listLeB_refl : ∀ s : List Char, listLeB s s = true
  | [] => rfl
  | a :: as => by simp [listLeB, listLeB_refl as]

theorem listLeB_total : ∀ s t : List Char, listLeB s t = true ∨ listLeB t s = true
  | [], _ => Or.inl rfl
  | _ :: _, [] => Or.inr rfl
  | a :: as, b :: bs => by
    rcases Nat.lt_trichotomy a.toNat b.toNat with h | h | h
    · left; simp [listLeB, h]
    · have := listLeB_total as bs
      simp [listLeB, h, Nat.lt_irrefl]
      exact this
    · right; simp [listLeB, h]

theorem listLeB_trans : ∀ {s t u : List Char},
    listLeB s t = true → listLeB t u = true → listLeB s u = true
  | [], _, _, _, _ => rfl
  | _ :: _, [], _, h, _ => by simp [listLeB] at h
  | _ :: _, _ :: _, [], _, h' => by simp [listLeB] at h'
  | a :: as, b :: bs, c :: cs, h, h' => by
    rcases Nat.lt_trichotomy a.toNat b.toNat with hab | hab | hab
    · rcases Nat.lt_trichotomy b.toNat c.toNat with hbc | hbc | hbc
      · simp [listLeB, Nat.lt_trans hab hbc]
      · simp [listLeB, hbc ▸ hab]
      · simp [listLeB, Nat.lt_asymm hbc, hbc] at h'
    · rcases Nat.lt_trichotomy b.toNat c.toNat with hbc | hbc | hbc
      · simp [listLeB, hab.symm ▸ hbc]
      · have hac : a.toNat = c.toNat := hab.trans hbc
        simp [listLeB, hab, Nat.lt_irrefl] at h
        simp [listLeB, hbc, Nat.lt_irrefl] at h'
        simp [listLeB, hac, Nat.lt_irrefl]
        exact listLeB_trans h h'
      · simp [listLeB, Nat.lt_asymm hbc, hbc] at h'
    · simp [listLeB, Nat.lt_asymm hab, hab] at h

theorem listLeB_antisymm : ∀ {s t : List Char},
    listLeB s t = true → listLeB t s = true → s = t
  | [], [], _, _ => rfl
  | [], _ :: _, _, h' => by simp [listLeB] at h'
  | _ :: _, [], h, _ => by simp [listLeB] at h
  | a :: as, b :: bs, h, h' => by
    rcases Nat.lt_trichotomy a.toNat b.toNat with hab | hab | hab
    · simp [listLeB, hab, Nat.lt_asymm hab] at h'
    · have ha : a = b := Char.eq_of_val_eq (UInt32.ext hab)
      subst ha
      simp [listLeB, Nat.lt_irrefl] at h h'
      rw [listLeB_antisymm h h']
    · simp [listLeB, hab, Nat.lt_asymm hab] at h

theorem strLeB_refl (s : String) : strLeB s s = true :=
  listLeB_refl s.data

theorem strLeB_total (s t : String) : strLeB s t = true ∨ strLeB t s = true :=
  listLeB_total s.data t.data

theorem strLeB_trans {s t u : String} :
    strLeB s t = true → strLeB t u = true → strLeB s u = true :=
  listLeB_trans

theorem strLeB_antisymm : ∀ {s t : String},
    strLeB s t = true → strLeB t s = true → s = t
  | ⟨_⟩, ⟨_⟩, h, h' => congrArg String.mk (listLeB_antisymm h h')

theorem strLtB_iff {s t : String} : strLtB s t = true ↔ ¬ strLeB t s = true := by
  simp [strLtB, strLeB]

/-- Python `<=` on an `(int, str)` pair (tuple comparison). -/
def intStrLeB (p q : Int × String) : Bool :=
  decide (p.1 < q.1) || (decide (p.1 = q.1) && strLeB p.2 q.2)

/-- Python `<=` on a `(str, str)` pair (tuple comparison). -/
def strStrLeB (p q : String × String) : Bool :=
  strLtB p.1 q.1 || (decide (p.1 = q.1) && strLeB p.2 q.2)

theorem intStrLeB_total (p q : Int × String) :
    intStrLeB p q = true ∨ intStrLeB q p = true := by
  rcases lt_trichotomy p.1 q.1 with h | h | h
  · left; simp [intStrLeB, h]
  · rcases strLeB_total p.2 q.2 with h2 | h2
    · left; simp [intStrLeB, h, h2]
    · right; simp [intStrLeB, h.symm, h2]
  · right; simp [intStrLeB, h]

theorem intStrLeB_trans {p q r : Int × String} :
    intStrLeB p q = true → intStrLeB q r = true → intStrLeB p r = true := by
  simp only [intStrLeB, Bool.or_eq_true, Bool.and_eq_true, decide_eq_true_eq]
  rintro (h | ⟨h, h2⟩) (h' | ⟨h', h2'⟩)
  · exact Or.inl (h.trans h')
  · exact Or.inl (h' ▸ h)
  · exact Or.inl (h ▸ h')
  · exact Or.inr ⟨h.trans h', strLeB_trans h2 h2'⟩

theorem intStrLeB_antisymm {p q : Int × String} :
    intStrLeB p q = true → intStrLeB q p = true → p = q := by
  simp only [intStrLeB, Bool.or_eq_true, Bool.and_eq_true, decide_eq_true_eq]
  rintro (h | ⟨h, h2⟩) (h' | ⟨h', h2'⟩)
  · exact absurd h' (lt_asymm h)
  · exact absurd h (h' ▸ lt_irrefl _)
  · exact absurd h' (h ▸ lt_irrefl _)
  · exact Prod.ext h (strLeB_antisymm h2 h2')

theorem strStrLeB_total (p q : String × String) :
    strStrLeB p q = true ∨ strStrLeB q p = true := by
  by_cases h : strLtB p.1 q.1 = true
  · left; simp [strStrLeB, h]
  · by_cases h' : strLtB q.1 p.1 = true
    · right; simp [strStrLeB, h']
    · rw [strLtB_iff, not_not] at h h'
      have h1 : p.1 = q.1 := strLeB_antisymm h' h
      rcases strLeB_total p.2 q.2 with h2 | h2
      · left; simp [strStrLeB, h1, h2]
      · right; simp [strStrLeB, h1.symm, h2]

theorem strStrLeB_trans {p q r : String × String} :
    strStrLeB p q = true → strStrLeB q r = true → strStrLeB p r = true := by
  simp only [strStrLeB, Bool.or_eq_true, Bool.and_eq_true, decide_eq_true_eq]
  rintro (h | ⟨h, h2⟩) (h' | ⟨h', h2'⟩)
  · left
    rw [strLtB_iff] at h h' ⊢
    intro hra
    rcases strLeB_total p.1 q.1 with hx | hx
    · exact h' (strLeB_trans hra hx)
    · exact h hx
  · left; exact h' ▸ h
  · left; exact h ▸ h'
  · exact Or.inr ⟨h.trans h', strLeB_trans h2 h2'⟩

theorem strStrLeB_antisymm {p q : String × String} :
    strStrLeB p q = true → strStrLeB q p = true → p = q := by
  simp only [strStrLeB, Bool.or_eq_true, Bool.and_eq_true, decide_eq_true_eq]
  rintro (h | ⟨h, h2⟩) (h' | ⟨h', h2'⟩)
  · rw [strLtB_iff] at h h'
    rcases strLeB_total p.1 q.1 with hx | hx
    · exact absurd hx h'
    · exact absurd hx h
  · rw [strLtB_iff, h'] at h
    exact absurd (strLeB_refl p.1) h
  · rw [strLtB_iff, h] at h'
    exact absurd (strLeB_refl q.1) h'
  · exact Prod.ext h (strLeB_antisymm h2 h2')

/-! ### `manifest_assets.py`: data and helpers

A file entry of `files_json` is a Python dict; the helpers access it with
`dict.get`, so every field is optional here. -/

structure FileRec where
  filename : Option String
  storage_path : Option String
  file_size : Option Int
deriving DecidableEq, Repr

/-- `AUDIO_EXTS + CHART_EXTS + INI_EXTS` (each a single extension class). -/
def REQUIRED_EXTS : List String := [".opus", ".chart", ".ini"]

/-- `_lname(f) = str(f.get("filename", "")).strip().lower()`. -/
def lname (f : FileRec) : String :=
  pyLower (pyStrip (f.filename.getD ""))

/-- `_lname(f).endswith(ext)`. -/
def endsWithExt (f : FileRec) (ext : String) : Bool :=
  ext.data.isSuffixOf (lname f).data

/-- `_filter_required(files)`. -/
def filter_required (files : List FileRec) : List FileRec :=
  files.filter (fun f => REQUIRED_EXTS.any (fun e => endsWithExt f e))

/-- `[0-9a-f]` — a lowercase hexadecimal digit. -/
def isHexLower (c : Char) : Bool :=
  c.isDigit || ('a' ≤ c && c ≤ 'f')

/-- Match exactly `n` characters satisfying `p`, returning the rest. -/
def matchCount (p : Char → Bool) : Nat → List Char → Option (List Char)
  | 0, cs => some cs
  | _ + 1, [] => none
  | n + 1, c :: cs => if p c then matchCount p n cs else none

/-- Match `[0-9a-f]{8}-[0-9a-f]{4}-[0-9a-f]{4}-[0-9a-f]{4}-[0-9a-f]{12}`,
returning the rest of the input. -/
def matchUuid (cs : List Char) : Option (List Char) := do
  let cs ← matchCount isHexLower 8 cs
  let cs ← match cs with | '-' :: r => some r | _ => none
  let cs ← matchCount isHexLower 4 cs
  let cs ← match cs with | '-' :: r => some r | _ => none
  let cs ← matchCount isHexLower 4 cs
  let cs ← match cs with | '-' :: r => some r | _ => none
  let cs ← matchCount isHexLower 4 cs
  let cs ← match cs with | '-' :: r => some r | _ => none
  matchCount isHexLower 12 cs

/-- Match the anchored pattern `^s3://uns/<uuid>`, returning the rest of the
input when it matches. -/
def matchS3UuidPat (cs : List Char) : Option (List Char) :=
  match cs with
  | 's' :: '3' :: ':' :: '/' :: '/' :: 'u' :: 'n' :: 's' :: '/' :: rest => matchUuid rest
  | _ => none

/-- `_remove_s3_uuid_prefix(storage_path)`: `re.sub` with the `^`-anchored
pattern (which can replace at most the one match at position 0), then
`.strip()`.  Named `remove_s3_uuid_pat` here. -/
def remove_s3_uuid_pat (s : String) : String :=
  match matchS3UuidPat s.data with
  | some rest => pyStrip ⟨rest⟩
  | none => pyStrip s

/-- `int(x.get("file_size", 0) or 0)`: a missing value (and Python `None`,
via `or 0`) becomes `0`. -/
def fileSizeInt (f : FileRec) : Int :=
  f.file_size.getD 0

/-- The sort key `(int(x.get("file_size", 0) or 0), _lname(x))` of
`_pick_single_storage_path`. -/
def pickKey (f : FileRec) : Int × String :=
  (fileSizeInt f, lname f)

/-- `candidates.sort(key=pickKey, reverse=True)` orders by this relation:
descending keys, stable on ties. -/
def pickRel (x y : FileRec) : Prop :=
  intStrLeB (pickKey y) (pickKey x) = true

instance decPickRel (x y : FileRec) : Decidable (pickRel x y) :=
  inferInstanceAs (Decidable (_ = true))

instance : IsTotal FileRec pickRel :=
  ⟨fun x y => intStrLeB_total (pickKey y) (pickKey x)⟩

instance : IsTrans FileRec pickRel :=
  ⟨fun _ _ _ h h' => intStrLeB_trans h' h⟩

/-- `_pick_single_storage_path(files, ext)`: `None` when no candidate
matches the extension, otherwise the first element of the stably
descending-sorted candidate list, its `storage_path` passed through
`str(...)` and the address stripper. -/
def pick_single_storage_path (files : List FileRec) (ext : String) : Option String :=
  let candidates := files.filter (fun f => endsWithExt f ext)
  ((candidates.insertionSort pickRel).head?).map
    (fun best => remove_s3_uuid_pat (strOfOptStr best.storage_path))

/-- The sort key `(_lname(x), str(x.get("storage_path", "")))` of
`_sorted_opus_paths`. -/
def opusKey (f : FileRec) : String × String :=
  (lname f, f.storage_path.getD "")

/-- `opus.sort(key=opusKey)` orders by this relation: ascending keys,
stable on ties. -/
def opusRel (x y : FileRec) : Prop :=
  strStrLeB (opusKey x) (opusKey y) = true

instance decOpusRel (x y : FileRec) : Decidable (opusRel x y) :=
  inferInstanceAs (Decidable (_ = true))

instance : IsTotal FileRec opusRel :=
  ⟨fun x y => strStrLeB_total (opusKey x) (opusKey y)⟩

instance : IsTrans FileRec opusRel :=
  ⟨fun _ _ _ h h' => strStrLeB_trans h h'⟩

/-- `_sorted_opus_paths(files)`. -/
def sorted_opus_paths (files : List FileRec) : List String :=
  let opus := files.filter (fun f => endsWithExt f ".opus")
  let opusSorted := opus.insertionSort opusRel
  let storage_paths :=
    (opusSorted.filter (fun f => pyTruthyOpt f.storage_path)).map
      (fun f => strOfOptStr f.storage_path)
  storage_paths.map remove_s3_uuid_pat

/-! ### `_collect_valid_songs` -/

/-- A SQL `TIMESTAMP` value as used by `directory_metadata.uploaded_at`
(only ever formatted with `strftime`). -/
structure DateTime where
  year : Nat
  month : Nat
  day : Nat
  hour : Nat
  minute : Nat
  second : Nat
deriving DecidableEq, Repr

/-- Zero-pad a number to two digits (`strftime` field formatting). -/
def pad2 (n : Nat) : String :=
  if n < 10 then "0" ++ toString n else toString n

/-- Zero-pad a number to four digits (`strftime` `%Y`). -/
def pad4 (n : Nat) : String :=
  if n < 10 then "000" ++ toString n
  else if n < 100 then "00" ++ toString n
  else if n < 1000 then "0" ++ toString n
  else toString n

/-- `uploaded_at.strftime("%Y-%m-%d %H:%M:%S")`. -/
def strftimeYmdHMS (t : DateTime) : String :=
  pad4 t.year ++ "-" ++ pad2 t.month ++ "-" ++ pad2 t.day ++ " " ++
    pad2 t.hour ++ ":" ++ pad2 t.minute ++ ":" ++ pad2 t.second

/-- One row of the `directory_metadata` table as fetched by the manifest
query (`id, dirname, file_count, total_size, files_json, uploaded_at`). -/
structure MetaRow where
  dir_id : Int
  dirname : String
  file_count : Int
  total_size : Int
  files_json : List FileRec
  uploaded_at : DateTime
deriving DecidableEq, Repr

/-- A manifest row built by `_collect_valid_songs`.  In the source,
`opus_paths` is JSON-encoded (`json.dumps`) into the string column of the
parquet schema; that serialization step is kept as the list itself. -/
structure ManifestRow where
  dir_id : Int
  dirname : String
  ini_path : String
  chart_path : String
  opus_paths : List String
  uploaded_at : String
deriving DecidableEq, Repr

/-- The three selections made per record by `_collect_valid_songs`:
sorted opus paths, chart path, ini path (in that order in the source). -/
def rowSelections (r : MetaRow) : List String × Option String × Option String :=
  let files := filter_required r.files_json
  (sorted_opus_paths files,
   pick_single_storage_path files ".chart",
   pick_single_storage_path files ".ini")

/-- The keep condition of `_collect_valid_songs`: the negation of
`if not opus_paths or not chart_path or not ini_path`.  An empty list,
`None`, and an empty string are all falsy in Python. -/
def keepRow (r : MetaRow) : Bool :=
  let (opus_paths, chart_path, ini_path) := rowSelections r
  !opus_paths.isEmpty && pyTruthyOpt chart_path && pyTruthyOpt ini_path

/-- The manifest row appended for a kept record.  `chart_path`/`ini_path`
go through Python `str(...)` only in the sense that a kept record has
truthy (hence `some`) selections; `.getD ""` is never hit for kept rows. -/
def mkManifestRow (r : MetaRow) : ManifestRow :=
  let (opus_paths, chart_path, ini_path) := rowSelections r
  { dir_id := r.dir_id
    dirname := r.dirname
    ini_path := ini_path.getD ""
    chart_path := chart_path.getD ""
    opus_paths := opus_paths
    uploaded_at := strftimeYmdHMS r.uploaded_at }

/-- `_collect_valid_songs(result_rows)`: rows plus the counters
`(total_songs, kept_dirs, dropped_missing)`. -/
def collect_valid_songs : List MetaRow → List ManifestRow × Nat × Nat × Nat
  | [] => ([], 0, 0, 0)
  | r :: rs =>
    let (rows, total, kept, dropped) := collect_valid_songs rs
    if keepRow r then (mkManifestRow r :: rows, total + 1, kept + 1, dropped)
    else (rows, total + 1, kept, dropped + 1)

/-! ### `directory_processing.py`: the claim store

The `directory_processing_state` table, one `ClaimRecord` per row, in
insertion order; `dirname` is the primary key.  Timestamps are integers
(seconds); `CURRENT_TIMESTAMP`/`NOW()` is passed in as `now`. -/

inductive Status where
  | processing
  | completed
  | failed
deriving DecidableEq, Repr

structure ClaimRecord where
  dirname : String
  started_at : Int
  completed_at : Option Int
  status : Status
  run_id : Option String
deriving DecidableEq, Repr

abbrev ClaimStore := List ClaimRecord

/-- Does any row with this primary key exist? -/
def hasRecord (st : ClaimStore) (dirname : String) : Bool :=
  st.any (fun r => r.dirname == dirname)

/-- The number of rows for a given `dirname` (the primary key makes this
0 or 1 in any store reachable through the operations). -/
def countRecords (st : ClaimStore) (dirname : String) : Nat :=
  (st.filter (fun r => r.dirname == dirname)).length

/-- `INSERT INTO directory_processing_state (dirname, status, run_id)
VALUES (:dirname, 'processing', :run_id)`: the primary-key constraint on
`dirname` makes the insert raise `IntegrityError` when a row exists. -/
def insertProcessing (st : ClaimStore) (dirname : String) (now : Int)
    (run_id : Option String) : Except Unit ClaimStore :=
  if hasRecord st dirname then .error ()
  else .ok (st ++ [{ dirname := dirname, started_at := now, completed_at := none,
                     status := .processing, run_id := run_id }])

/-- `mark_directory_as_processing(dirname, run_id)`: try the insert and
convert an `IntegrityError` into the `False` return value. -/
def mark_directory_as_processing (st : ClaimStore) (dirname : String) (now : Int)
    (run_id : Option String) : ClaimStore × Bool :=
  match insertProcessing st dirname now run_id with
  | .ok st' => (st', true)
  | .error _ => (st, false)

/-- `mark_directory_as_completed(dirname)`: `UPDATE ... SET status =
'completed', completed_at = CURRENT_TIMESTAMP WHERE dirname = :dirname`.
An `UPDATE` matching no row updates nothing and raises nothing. -/
def mark_directory_as_completed (st : ClaimStore) (dirname : String) (now : Int) :
    ClaimStore :=
  st.map (fun r =>
    if r.dirname == dirname then
      { r with status := .completed, completed_at := some now }
    else r)

/-- `mark_directory_as_failed(dirname)`: same `UPDATE` with `'failed'`. -/
def mark_directory_as_failed (st : ClaimStore) (dirname : String) (now : Int) :
    ClaimStore :=
  st.map (fun r =>
    if r.dirname == dirname then
      { r with status := .failed, completed_at := some now }
    else r)

/-- `get_processed_directories()`: all dirnames with any row. -/
def get_processed_directories (st : ClaimStore) : List String :=
  st.map (fun r => r.dirname)

/-- The `WHERE` clause of the stuck queries: `status = 'processing' AND
started_at < NOW() - :timeout_hours * INTERVAL '1 hour'`. -/
def isStuck (now : Int) (timeout_hours : Int) (r : ClaimRecord) : Bool :=
  r.status == .processing && r.started_at < now - timeout_hours * 3600

/-- `cleanup_stuck_directories(timeout_hours)`: `UPDATE` all stuck rows to
`'failed'` with `completed_at = CURRENT_TIMESTAMP`, returning `rowcount`. -/
def cleanup_stuck_directories (st : ClaimStore) (now : Int) (timeout_hours : Int) :
    ClaimStore × Nat :=
  (st.map (fun r =>
      if isStuck now timeout_hours r then
        { r with status := .failed, completed_at := some now }
      else r),
   (st.filter (isStuck now timeout_hours)).length)

/-! ### `jobs/collection.py`: the ingestion pipeline

`process_directory` uploads every regular file of one claimed directory,
stores one `directory_metadata` row, and transitions the claim.  Object
storage is a list of `(bucket, object key)` pairs in upload order; whether
`s3.upload_file` raises for a given file is abstracted as `uploadFails`
(`none` = success, `some e` = the exception's message). -/

structure FileOnDisk where
  filename : String
  size : Int
deriving DecidableEq, Repr

/-- A `FileRecord` dict accumulated by the upload loop:
`{"filename": ..., "storage_path": ..., "file_size": ...}`. -/
structure UploadedFile where
  filename : String
  storage_path : String
  file_size : Int
deriving DecidableEq, Repr

/-- A row of `directory_metadata` as inserted by `store_directory_metadata`. -/
structure StoredMeta where
  dirname : String
  file_count : Nat
  total_size : Int
  files : List UploadedFile
deriving DecidableEq, Repr

/-- The shared state one pipeline run touches. -/
structure SysState where
  claims : ClaimStore
  metadata : List StoredMeta
  objects : List (String × String)
deriving DecidableEq, Repr

/-- The dict returned by `process_directory` on success. -/
structure DirInfo where
  dirname : String
  file_count : Nat
  total_size : Int
  uploaded_files : List UploadedFile
deriving DecidableEq, Repr

/-- The upload `for` loop of `process_directory`: upload each file to
`collected/<dirname>/<filename>` in the `data-collection` bucket,
accumulating `uploaded_files` and `total_size`; the first failing upload
aborts the loop, keeping the objects uploaded so far. -/
def uploadFiles (uploadFails : String → Option String) (dirname : String) :
    List FileOnDisk → List (String × String) → List UploadedFile → Int →
    List (String × String) × Except String (List UploadedFile × Int)
  | [], objs, acc, tot => (objs, .ok (acc, tot))
  | f :: fs, objs, acc, tot =>
    match uploadFails f.filename with
    | some e => (objs, .error e)
    | none =>
      let object_key := "collected/" ++ dirname ++ "/" ++ f.filename
      let storage_path := "data-collection/" ++ object_key
      uploadFiles uploadFails dirname fs (objs ++ [("data-collection", object_key)])
        (acc ++ [⟨f.filename, storage_path, f.size⟩]) (tot + f.size)

/-- `process_directory`: on any exception in the `try` block the claim is
marked failed and a `dg.Failure` naming the directory is raised; on success
the metadata row is stored and the claim marked completed. -/
def process_directory (uploadFails : String → Option String) (dirname : String)
    (files : List FileOnDisk) (st : SysState) (now : Int) :
    SysState × Except String DirInfo :=
  match uploadFiles uploadFails dirname files st.objects [] 0 with
  | (objs, .error e) =>
    ({ st with objects := objs,
               claims := mark_directory_as_failed st.claims dirname now },
     .error ("Failed to process directory " ++ dirname ++ ": " ++ e))
  | (objs, .ok (uploaded_files, total_size)) =>
    ({ claims := mark_directory_as_completed st.claims dirname now,
       metadata := st.metadata ++
         [⟨dirname, uploaded_files.length, total_size, uploaded_files⟩],
       objects := objs },
     .ok ⟨dirname, uploaded_files.length, total_size, uploaded_files⟩)

/-! ### `sensors.py`: the poller -/

/-- An entry of `os.listdir(watch_dir)` together with its
`os.path.isdir` answer. -/
structure DirEntry where
  name : String
  isDir : Bool
deriving DecidableEq, Repr

/-- Python `sorted` on strings orders by this relation. -/
def strRel (s t : String) : Prop :=
  strLeB s t = true

instance decStrRel (s t : String) : Decidable (strRel s t) :=
  inferInstanceAs (Decidable (_ = true))

instance : IsTotal String strRel :=
  ⟨strLeB_total⟩

instance : IsTrans String strRel :=
  ⟨fun _ _ _ => strLeB_trans⟩

instance : IsAntisymm String strRel :=
  ⟨fun _ _ => strLeB_antisymm⟩

instance : IsRefl String strRel :=
  ⟨strLeB_refl⟩

/-- The claim loop at the end of a sensor tick: attempt
`mark_directory_as_processing(dirname, run_id=None)` for each name in
order; names whose claim returns `False` are skipped silently, the others
are emitted as run requests. -/
def claimBatch (now : Int) : List String → ClaimStore → ClaimStore × List String
  | [], st => (st, [])
  | d :: ds, st =>
    let (st1, ok) := mark_directory_as_processing st d now none
    let (st2, emitted) := claimBatch now ds st1
    if ok then (st2, d :: emitted) else (st2, emitted)

/-- `new_file_sensor`.  `listing = none` embeds a missing watch root
(`FileNotFoundError` from `os.listdir`, answered with a `SkipReason`);
`some items` is the directory listing.  `current_dirs` is a Python set,
embedded as a deduplicated list.  Returns the updated claim store and the
dirnames for which run requests were emitted, in order. -/
def new_file_sensor (listing : Option (List DirEntry)) (maxDirsPerRun : Nat)
    (st : ClaimStore) (now : Int) : ClaimStore × List String :=
  match listing with
  | none => (st, [])
  | some items =>
    let current_dirs := ((items.filter (fun i => i.isDir)).map (fun i => i.name)).dedup
    if current_dirs.isEmpty then (st, [])
    else
      let processed_dirs := get_processed_directories st
      let new_dirs := current_dirs.filter (fun d => !processed_dirs.contains d)
      if new_dirs.isEmpty then (st, [])
      else
        let new_dirs_list :=
          (new_dirs.insertionSort strRel).take (min maxDirsPerRun new_dirs.length)
        claimBatch now (new_dirs_list.insertionSort strRel) st

/-! ### Helper lemmas -/

theorem intStrLeB_refl (p : Int × String) : intStrLeB p p = true := by
  simp [intStrLeB, strLeB_refl]

theorem hasRecord_iff {st : ClaimStore} {d : String} :
    hasRecord st d = true ↔ ∃ r ∈ st, r.dirname = d := by
  simp [hasRecord, List.any_eq_true, beq_iff_eq]

theorem hasRecord_append {st st' : ClaimStore} {d : String} :
    hasRecord (st ++ st') d = (hasRecord st d || hasRecord st' d) := by
  simp [hasRecord, List.any_append]

theorem countRecords_eq_zero {st : ClaimStore} {d : String}
    (h : hasRecord st d = false) : countRecords st d = 0 := by
  simp only [countRecords, List.length_eq_zero, List.filter_eq_nil_iff]
  intro r hr
  simp only [beq_iff_eq]
  intro hd
  rw [hasRecord_iff.mpr ⟨r, hr, hd⟩] at h
  exact Bool.true_eq_false.mp h

theorem mem_mark_completed {st : ClaimStore} {d : String} {now : Int} {r : ClaimRecord}
    (hr : r ∈ st) (hd : r.dirname = d) :
    { r with status := Status.completed, completed_at := some now } ∈
      mark_directory_as_completed st d now := by
  have := List.mem_map_of_mem (fun r : ClaimRecord =>
    if r.dirname == d then { r with status := Status.completed, completed_at := some now }
    else r) hr
  simpa [mark_directory_as_completed, hd] using this

theorem mem_mark_failed {st : ClaimStore} {d : String} {now : Int} {r : ClaimRecord}
    (hr : r ∈ st) (hd : r.dirname = d) :
    { r with status := Status.failed, completed_at := some now } ∈
      mark_directory_as_failed st d now := by
  have := List.mem_map_of_mem (fun r : ClaimRecord =>
    if r.dirname == d then { r with status := Status.failed, completed_at := some now }
    else r) hr
  simpa [mark_directory_as_failed, hd] using this

theorem mark_completed_of_absent {st : ClaimStore} {d : String} {now : Int}
    (h : hasRecord st d = false) : mark_directory_as_completed st d now = st := by
  unfold mark_directory_as_completed
  rw [show st.map _ = st.map id by
    apply List.map_congr_left
    intro r hr
    have hd : r.dirname ≠ d := fun hd => by
      rw [hasRecord_iff.mpr ⟨r, hr, hd⟩] at h
      exact Bool.true_eq_false.mp h
    simp [hd]]
  exact List.map_id st

theorem mark_failed_of_absent {st : ClaimStore} {d : String} {now : Int}
    (h : hasRecord st d = false) : mark_directory_as_failed st d now = st := by
  unfold mark_directory_as_failed
  rw [show st.map _ = st.map id by
    apply List.map_congr_left
    intro r hr
    have hd : r.dirname ≠ d := fun hd => by
      rw [hasRecord_iff.mpr ⟨r, hr, hd⟩] at h
      exact Bool.true_eq_false.mp h
    simp [hd]]
  exact List.map_id st

/-! ### Theorems for the claims -/

/-- C1: if no `ClaimRecord` for `dirname` exists, `claim` inserts exactly one
`processing` record (with `started_at = now` and the given `run_id`) and
returns `true`; if any record exists — whatever its status — it returns
`false` and leaves the store unchanged, the uniqueness violation having
been converted into the `false` return value (the function is total and
never propagates the `IntegrityError`). -/
theorem C1_claim_insert_or_reject (st : ClaimStore) (dirname : String) (now : Int)
    (run_id : Option String) :
    (hasRecord st dirname = false →
      mark_directory_as_processing st dirname now run_id =
        (st ++ [{ dirname := dirname, started_at := now, completed_at := none,
                  status := Status.processing, run_id := run_id }], true) ∧
      countRecords (mark_directory_as_processing st dirname now run_id).1 dirname = 1) ∧
    (hasRecord st dirname = true →
      mark_directory_as_processing st dirname now run_id = (st, false)) := by
  constructor
  · intro h
    have heq : mark_directory_as_processing st dirname now run_id =
        (st ++ [{ dirname := dirname, started_at := now, completed_at := none,
                  status := Status.processing, run_id := run_id }], true) := by
      simp [mark_directory_as_processing, insertProcessing, h]
    refine ⟨heq, ?_⟩
    rw [heq]
    simp [countRecords, List.filter_append, countRecords_eq_zero h]
    have := countRecords_eq_zero h
    simpa [countRecords] using this
  · intro h
    simp [mark_directory_as_processing, insertProcessing, h]

/-- Witness for C1: on the empty store, claiming `songA` creates the record
and returns `true`; after `complete`, a second claim on the now-`completed`
record returns `false` and leaves the store unchanged. -/
theorem C1_claim_insert_or_reject_witness :
    mark_directory_as_processing ([] : ClaimStore) "songA" 0 none =
      ([{ dirname := "songA", started_at := 0, completed_at := none,
          status := Status.processing, run_id := none }], true) ∧
    mark_directory_as_processing
        (mark_directory_as_completed
          (mark_directory_as_processing ([] : ClaimStore) "songA" 0 none).1 "songA" 5)
        "songA" 9 none =
      (mark_directory_as_completed
        (mark_directory_as_processing ([] : ClaimStore) "songA" 0 none).1 "songA" 5,
       false) := by
  refine ⟨((C1_claim_insert_or_reject [] "songA" 0 none).1 (by decide)).1, ?_⟩
  exact (C1_claim_insert_or_reject
    (mark_directory_as_completed
      (mark_directory_as_processing ([] : ClaimStore) "songA" 0 none).1 "songA" 5)
    "songA" 9 none).2 (by decide)

/-- C3: `sweep` transitions every stuck record (status `processing` with
`started_at` older than the timeout) to `failed`, leaves the others
untouched, returns the number of records affected, and is idempotent: an
immediately repeated sweep affects no record and returns 0. -/
theorem C3_sweep_stuck (st : ClaimStore) (now timeout_hours : Int) :
    (cleanup_stuck_directories st now timeout_hours).2 =
      (st.filter (isStuck now timeout_hours)).length ∧
    (∀ r ∈ st, isStuck now timeout_hours r = true →
      { r with status := Status.failed, completed_at := some now } ∈
        (cleanup_stuck_directories st now timeout_hours).1) ∧
    (∀ r ∈ st, isStuck now timeout_hours r = false →
      r ∈ (cleanup_stuck_directories st now timeout_hours).1) ∧
    cleanup_stuck_directories (cleanup_stuck_directories st now timeout_hours).1
        now timeout_hours =
      ((cleanup_stuck_directories st now timeout_hours).1, 0) := by
  refine ⟨rfl, ?_, ?_, ?_⟩
  · intro r hr hstuck
    have := List.mem_map_of_mem (fun r : ClaimRecord =>
      if isStuck now timeout_hours r then
        { r with status := Status.failed, completed_at := some now }
      else r) hr
    simpa [cleanup_stuck_directories, hstuck] using this
  · intro r hr hnot
    have := List.mem_map_of_mem (fun r : ClaimRecord =>
      if isStuck now timeout_hours r then
        { r with status := Status.failed, completed_at := some now }
      else r) hr
    simpa [cleanup_stuck_directories, hnot] using this
  · have hnone : ∀ r ∈ (cleanup_stuck_directories st now timeout_hours).1,
        isStuck now timeout_hours r = false := by
      intro r hr
      simp only [cleanup_stuck_directories, List.mem_map] at hr
      obtain ⟨r0, _, hr0⟩ := hr
      by_cases h0 : isStuck now timeout_hours r0 = true
      · rw [← hr0, if_pos h0]
        simp [isStuck]
      · rw [Bool.not_eq_true] at h0
        rw [← hr0, if_neg (by simp [h0])]
        exact h0
    have hmap : ∀ X : ClaimStore, (∀ r ∈ X, isStuck now timeout_hours r = false) →
        (X.map (fun r =>
          if isStuck now timeout_hours r then
            { r with status := Status.failed, completed_at := some now }
          else r)) = X := by
      intro X hX
      exact (List.map_congr_left (fun r hr => by simp [hX r hr])).trans (List.map_id X)
    have hfil : ((cleanup_stuck_directories st now timeout_hours).1.filter
        (isStuck now timeout_hours)).length = 0 := by
      simp only [List.length_eq_zero, List.filter_eq_nil_iff]
      intro r hr
      simp [hnone r hr]
    unfold cleanup_stuck_directories
    rw [Prod.mk.injEq]
    exact ⟨hmap _ hnone, hfil⟩

/-- Witness for C3: a record claimed 10 seconds ago is swept by
`sweep(timeout=0)` — the count is 1, the record transitions to `failed` —
and an immediately repeated sweep affects nothing and returns 0. -/
theorem C3_sweep_stuck_witness :
    (cleanup_stuck_directories
        [{ dirname := "d", started_at := 0, completed_at := none,
           status := Status.processing, run_id := none }] 10 0).2 = 1 ∧
    { dirname := "d", started_at := 0, completed_at := some 10,
      status := Status.failed, run_id := none } ∈
      (cleanup_stuck_directories
        [{ dirname := "d", started_at := 0, completed_at := none,
           status := Status.processing, run_id := none }] 10 0).1 ∧
    cleanup_stuck_directories
        (cleanup_stuck_directories
          [{ dirname := "d", started_at := 0, completed_at := none,
             status := Status.processing, run_id := none }] 10 0).1 10 0 =
      ((cleanup_stuck_directories
        [{ dirname := "d", started_at := 0, completed_at := none,
           status := Status.processing, run_id := none }] 10 0).1, 0) := by
  have h := C3_sweep_stuck
    [{ dirname := "d", started_at := 0, completed_at := none,
       status := Status.processing, run_id := none }] 10 0
  exact ⟨h.1.trans (by decide),
    h.2.1 { dirname := "d", started_at := 0, completed_at := none,
            status := Status.processing, run_id := none } (by decide) (by decide),
    h.2.2.2⟩

/-- C8 counterexample: on a store with no record at all, `complete("songA")`
and `fail("songA")` return normally with the store unchanged — the
underlying `UPDATE` matches zero rows and raises nothing, so calling them
on a non-existent name is a silent no-op, not an error. -/
theorem C8_counterexample_silent_noop :
    mark_directory_as_completed ([] : ClaimStore) "songA" 7 = ([] : ClaimStore) ∧
    mark_directory_as_failed ([] : ClaimStore) "songA" 7 = ([] : ClaimStore) :=
  ⟨rfl, rfl⟩

/-- C8 as amended: `complete(name)`/`fail(name)` on a name with no record is
a silent no-op that leaves the store unchanged (not an error); when a record
for the name exists, `complete` sets its status to `completed` and `fail`
sets it to `failed`, each also setting `completed_at`; other records are
untouched. -/
theorem C8_update_or_noop (st : ClaimStore) (dirname : String) (now : Int) :
    (hasRecord st dirname = false →
      mark_directory_as_completed st dirname now = st ∧
      mark_directory_as_failed st dirname now = st) ∧
    (∀ r ∈ st, r.dirname = dirname →
      { r with status := Status.completed, completed_at := some now } ∈
        mark_directory_as_completed st dirname now ∧
      { r with status := Status.failed, completed_at := some now } ∈
        mark_directory_as_failed st dirname now) ∧
    (∀ r ∈ st, r.dirname ≠ dirname →
      r ∈ mark_directory_as_completed st dirname now ∧
      r ∈ mark_directory_as_failed st dirname now) := by
  refine ⟨fun h => ⟨mark_completed_of_absent h, mark_failed_of_absent h⟩,
    fun r hr hd => ⟨mem_mark_completed hr hd, mem_mark_failed hr hd⟩,
    fun r hr hd => ⟨?_, ?_⟩⟩
  · have := List.mem_map_of_mem (fun r : ClaimRecord =>
      if r.dirname == dirname then
        { r with status := Status.completed, completed_at := some now }
      else r) hr
    simpa [mark_directory_as_completed, hd] using this
  · have := List.mem_map_of_mem (fun r : ClaimRecord =>
      if r.dirname == dirname then
        { r with status := Status.failed, completed_at := some now }
      else r) hr
    simpa [mark_directory_as_failed, hd] using this

/-- Witness for C8's amended theorem: the no-op branch on the empty store
and the update branch on a singleton store, at concrete inputs. -/
theorem C8_update_or_noop_witness :
    (mark_directory_as_completed ([] : ClaimStore) "ghost" 3 = ([] : ClaimStore)) ∧
    { dirname := "songA", started_at := 0, completed_at := some 3,
      status := Status.completed, run_id := none } ∈
      mark_directory_as_completed
        [{ dirname := "songA", started_at := 0, completed_at := none,
           status := Status.processing, run_id := none }] "songA" 3 ∧
    { dirname := "songA", started_at := 0, completed_at := some 3,
      status := Status.failed, run_id := none } ∈
      mark_directory_as_failed
        [{ dirname := "songA", started_at := 0, completed_at := none,
           status := Status.processing, run_id := none }] "songA" 3 := by
  have h0 := (C8_update_or_noop ([] : ClaimStore) "ghost" 3).1 (by decide)
  have h1 := (C8_update_or_noop
    [{ dirname := "songA", started_at := 0, completed_at := none,
       status := Status.processing, run_id := none }] "songA" 3).2.1
    { dirname := "songA", started_at := 0, completed_at := none,
      status := Status.processing, run_id := none } (by decide) (by decide)
  exact ⟨h0.1, h1.1, h1.2⟩

theorem dropWhile_head_not {α : Type} {p : α → Bool} :
    ∀ {l : List α} {a : α}, (l.dropWhile p).head? = some a → p a = false := by
  intro l
  induction l with
  | nil => intro a h; simp [List.dropWhile] at h
  | cons b bs ih =>
    intro a h
    rw [List.dropWhile_cons] at h
    by_cases hb : p b = true
    · rw [if_pos hb] at h
      exact ih h
    · rw [if_neg hb] at h
      simp only [List.head?_cons, Option.some.injEq] at h
      rw [← h]
      exact Bool.eq_false_iff.mpr hb

theorem dropWhile_idem {α : Type} {p : α → Bool} :
    ∀ l : List α, (l.dropWhile p).dropWhile p = l.dropWhile p
  | [] => rfl
  | a :: l => by
    rw [List.dropWhile_cons]
    by_cases h : p a = true
    · rw [if_pos h]
      exact dropWhile_idem l
    · rw [if_neg h, List.dropWhile_cons, if_neg h]

theorem stripChars_idem (cs : List Char) : stripChars (stripChars cs) = stripChars cs := by
  have hA : ∀ a, (cs.dropWhile pyIsSpace).head? = some a → pyIsSpace a = false :=
    fun _ h => dropWhile_head_not h
  unfold stripChars
  set A := cs.dropWhile pyIsSpace with hAdef
  set B := A.reverse.dropWhile pyIsSpace with hBdef
  have hstep : B.reverse.dropWhile pyIsSpace = B.reverse := by
    cases hh : B.reverse with
    | nil => rfl
    | cons b bs =>
      have hBne : B ≠ [] := by
        intro h0
        rw [h0] at hh
        simp at hh
      have hlast : B.getLast? = some b := by
        rw [← List.head?_reverse, hh, List.head?_cons]
      obtain ⟨t, ht⟩ := List.dropWhile_suffix (l := A.reverse) pyIsSpace
      have hlastA : A.reverse.getLast? = some b := by
        rw [← ht, List.getLast?_append_of_ne_nil _ hBne]
        exact hlast
      rw [List.getLast?_reverse] at hlastA
      have hb : pyIsSpace b = false := hA b hlastA
      rw [List.dropWhile_cons]
      simp [hb]
  rw [hstep, List.reverse_reverse, hBdef, dropWhile_idem]

theorem pyStrip_idem (s : String) : pyStrip (pyStrip s) = pyStrip s :=
  congrArg String.mk (stripChars_idem s.data)

theorem remove_of_no_match {s : String} (h : matchS3UuidPat s.data = none) :
    remove_s3_uuid_pat s = pyStrip s := by
  simp [remove_s3_uuid_pat, h]

/-- C7 counterexample: on an input whose address pattern is preceded by a
space, the first application only trims the space (the anchored pattern
does not match), and the second application then strips the uncovered
pattern — so stripping twice differs from stripping once. -/
theorem C7_counterexample_not_idempotent :
    remove_s3_uuid_pat
        (remove_s3_uuid_pat " s3://uns/00000000-0000-0000-0000-000000000000/p") ≠
      remove_s3_uuid_pat " s3://uns/00000000-0000-0000-0000-000000000000/p" := by
  decide

/-- C7 as amended: a string that does not begin with the address pattern is
returned unchanged except for whitespace trimming, and applying the
stripping function twice yields the same result as applying it once
whenever the first application's result does not itself begin with the
address pattern (trimming alone can uncover a second pattern, as can a
doubled pattern, so unconditional idempotence fails). -/
theorem C7_strip_trim_semantics (s : String) :
    (matchS3UuidPat s.data = none → remove_s3_uuid_pat s = pyStrip s) ∧
    (matchS3UuidPat (remove_s3_uuid_pat s).data = none →
      remove_s3_uuid_pat (remove_s3_uuid_pat s) = remove_s3_uuid_pat s) := by
  refine ⟨fun h => remove_of_no_match h, fun h => ?_⟩
  rw [remove_of_no_match h]
  cases hm : matchS3UuidPat s.data with
  | none =>
    rw [remove_of_no_match hm]
    exact pyStrip_idem s
  | some rest =>
    have hs : remove_s3_uuid_pat s = pyStrip ⟨rest⟩ := by
      simp [remove_s3_uuid_pat, hm]
    rw [hs]
    exact pyStrip_idem _

/-- Witness for C7's amended theorem at a concrete prefix-free input. -/
theorem C7_strip_trim_semantics_witness :
    remove_s3_uuid_pat "  abc " = pyStrip "  abc " ∧
    remove_s3_uuid_pat (remove_s3_uuid_pat "  abc ") = remove_s3_uuid_pat "  abc " := by
  have h := C7_strip_trim_semantics "  abc "
  exact ⟨h.1 (by decide), h.2 (by decide)⟩

/-! ### Helper lemmas about the selection sorts -/

/-- The head of the descending stable sort used by
`_pick_single_storage_path` is a key-maximal candidate. -/
theorem insertionSort_pick_head {l : List FileRec} {b : FileRec} {t : List FileRec}
    (h : l.insertionSort pickRel = b :: t) :
    b ∈ l ∧ ∀ x ∈ l, intStrLeB (pickKey x) (pickKey b) = true := by
  have hperm := List.perm_insertionSort pickRel l
  rw [h] at hperm
  constructor
  · exact hperm.subset (List.mem_cons_self b t)
  · intro x hx
    have hx' : x ∈ b :: t := hperm.symm.subset hx
    rcases List.mem_cons.mp hx' with rfl | hxt
    · exact intStrLeB_refl _
    · have hs := List.sorted_insertionSort pickRel l
      rw [h] at hs
      exact List.rel_of_sorted_cons hs x hxt

theorem insertionSort_pick_eq_nil {l : List FileRec}
    (h : l.insertionSort pickRel = []) : l = [] := by
  have hperm := List.perm_insertionSort pickRel l
  rw [h] at hperm
  exact hperm.nil_eq.symm

theorem pick_single_def (files : List FileRec) (ext : String) :
    pick_single_storage_path files ext =
      (((files.filter (fun f => endsWithExt f ext)).insertionSort
          pickRel).head?).map
        (fun best => remove_s3_uuid_pat (strOfOptStr best.storage_path)) :=
  rfl

theorem pick_single_eq_of_sort {l : List FileRec} {ext : String} {b : FileRec}
    {t : List FileRec}
    (h : (l.filter (fun f => endsWithExt f ext)).insertionSort pickRel = b :: t) :
    pick_single_storage_path l ext =
      some (remove_s3_uuid_pat (strOfOptStr b.storage_path)) := by
  rw [pick_single_def, h]
  rfl

theorem pick_single_eq_none {l : List FileRec} {ext : String}
    (h : (l.filter (fun f => endsWithExt f ext)).insertionSort pickRel = []) :
    pick_single_storage_path l ext = none := by
  rw [pick_single_def, h]
  rfl

theorem map_filter_eq_filterMap {α β : Type} (p : α → Bool) (f : α → β) :
    ∀ l : List α,
      (l.filter p).map f = l.filterMap (fun a => if p a then some (f a) else none)
  | [] => rfl
  | a :: l => by
    rw [List.filter_cons, List.filterMap_cons]
    by_cases h : p a
    · simp only [h, if_pos]
      rw [List.map_cons, map_filter_eq_filterMap p f l]
    · simp only [h]
      simp only [Bool.false_eq_true, if_false]
      exact map_filter_eq_filterMap p f l

/-- The per-key output function of `_sorted_opus_paths`: whether a file
contributes and what it contributes depends only on its sort key. -/
def opusOut (k : String × String) : Option String :=
  if k.2 != "" then some (remove_s3_uuid_pat k.2) else none

theorem opusOut_ofKey (f : FileRec) :
    (if pyTruthyOpt f.storage_path then
        some (remove_s3_uuid_pat (strOfOptStr f.storage_path))
      else none) = opusOut (opusKey f) := by
  rcases f with ⟨fn, sp, fs⟩
  cases sp with
  | none => rfl
  | some s =>
    by_cases h : s = ""
    · subst h; rfl
    · simp [pyTruthyOpt, opusOut, opusKey, strOfOptStr, h]

theorem sorted_opus_paths_def (files : List FileRec) :
    sorted_opus_paths files =
      ((((files.filter (fun f => endsWithExt f ".opus")).insertionSort
          opusRel).filter (fun f => pyTruthyOpt f.storage_path)).map
        (fun f => strOfOptStr f.storage_path)).map remove_s3_uuid_pat :=
  rfl

theorem sorted_opus_paths_eq_filterMap (files : List FileRec) :
    sorted_opus_paths files =
      (((files.filter (fun f => endsWithExt f ".opus")).insertionSort
          opusRel).map opusKey).filterMap opusOut := by
  rw [sorted_opus_paths_def, List.map_map, map_filter_eq_filterMap,
    List.filterMap_map]
  congr 1
  funext f
  simpa [Function.comp] using opusOut_ofKey f

/-- The ascending key order on `(lowercased filename, raw storage path)`
pairs, inherited by the mapped key list of the opus sort. -/
def keyRelSS (k k' : String × String) : Prop :=
  strStrLeB k k' = true

instance : IsAntisymm (String × String) keyRelSS :=
  ⟨fun _ _ => strStrLeB_antisymm⟩

theorem sorted_opus_keys_sorted (l : List FileRec) :
    ((l.insertionSort opusRel).map opusKey).Sorted keyRelSS := by
  have hs := List.sorted_insertionSort opusRel l
  exact List.Pairwise.map opusKey (fun _ _ h => h) hs

/-- `_sorted_opus_paths` is permutation-invariant: the output is the
key-sorted list of per-key outputs, and keys determine outputs. -/
theorem sorted_opus_paths_perm {l1 l2 : List FileRec} (hp : l1.Perm l2) :
    sorted_opus_paths l1 = sorted_opus_paths l2 := by
  rw [sorted_opus_paths_eq_filterMap, sorted_opus_paths_eq_filterMap]
  congr 1
  apply List.eq_of_perm_of_sorted (r := keyRelSS)
  · exact ((List.perm_insertionSort opusRel _).trans
      ((hp.filter _).trans (List.perm_insertionSort opusRel _).symm)).map opusKey
  · exact sorted_opus_keys_sorted _
  · exact sorted_opus_keys_sorted _

/-! ### C5 -/

/-- C5 counterexample: two chart candidates that tie on the sort key
(equal file size, equal lowercased filename) but carry different storage
paths — the stable descending sort keeps input order on ties, so the two
orderings of the same file set select different chart paths. -/
theorem C5_counterexample_tie_order_dependent :
    ([⟨some "A.chart", some "x", some 1⟩, ⟨some "a.chart", some "y", some 1⟩] :
        List FileRec).Perm
      [⟨some "a.chart", some "y", some 1⟩, ⟨some "A.chart", some "x", some 1⟩] ∧
    pick_single_storage_path
        [⟨some "A.chart", some "x", some 1⟩, ⟨some "a.chart", some "y", some 1⟩]
        ".chart" ≠
      pick_single_storage_path
        [⟨some "a.chart", some "y", some 1⟩, ⟨some "A.chart", some "x", some 1⟩]
        ".chart" :=
  ⟨List.Perm.swap _ _ _, by decide⟩

/-- C5 as amended: the audio selection is permutation-invariant
unconditionally; the chart/info selection is permutation-invariant
whenever no two distinct candidates share the same
`(file size, lowercased filename)` sort key (on a key tie the stable sort
keeps input order, so the selected storage path may depend on it). -/
theorem C5_selection_perm_invariant (l1 l2 : List FileRec) (hp : l1.Perm l2) :
    sorted_opus_paths l1 = sorted_opus_paths l2 ∧
    ∀ ext : String,
      (∀ f ∈ l1.filter (fun g => endsWithExt g ext),
        ∀ g ∈ l1.filter (fun g => endsWithExt g ext),
          pickKey f = pickKey g → f = g) →
      pick_single_storage_path l1 ext = pick_single_storage_path l2 ext := by
  refine ⟨sorted_opus_paths_perm hp, fun ext hinj => ?_⟩
  have hcp : (l1.filter (fun g => endsWithExt g ext)).Perm
      (l2.filter (fun g => endsWithExt g ext)) := hp.filter _
  cases hs1 : (l1.filter (fun g => endsWithExt g ext)).insertionSort pickRel with
  | nil =>
    have h1 : l1.filter (fun g => endsWithExt g ext) = [] :=
      insertionSort_pick_eq_nil hs1
    have h2 : l2.filter (fun g => endsWithExt g ext) = [] := by
      rw [h1] at hcp
      exact hcp.nil_eq.symm
    rw [pick_single_eq_none hs1, pick_single_eq_none (by rw [h2]; rfl)]
  | cons b1 t1 =>
    cases hs2 : (l2.filter (fun g => endsWithExt g ext)).insertionSort pickRel with
    | nil =>
      exfalso
      have h2 : l2.filter (fun g => endsWithExt g ext) = [] :=
        insertionSort_pick_eq_nil hs2
      rw [h2] at hcp
      have h1 : l1.filter (fun g => endsWithExt g ext) = [] := hcp.eq_nil
      rw [h1] at hs1
      simp at hs1
    | cons b2 t2 =>
      obtain ⟨hb1mem, hb1max⟩ := insertionSort_pick_head hs1
      obtain ⟨hb2mem, hb2max⟩ := insertionSort_pick_head hs2
      have hb2mem1 : b2 ∈ l1.filter (fun g => endsWithExt g ext) :=
        hcp.symm.subset hb2mem
      have hb1mem2 : b1 ∈ l2.filter (fun g => endsWithExt g ext) :=
        hcp.subset hb1mem
      have hkey : pickKey b1 = pickKey b2 :=
        intStrLeB_antisymm (hb2max b1 hb1mem2) (hb1max b2 hb2mem1)
      have hb : b1 = b2 := hinj b1 hb1mem b2 hb2mem1 hkey
      rw [pick_single_eq_of_sort hs1, pick_single_eq_of_sort hs2, hb]

/-- Witness for C5's amended theorem: two chart files with distinct sizes,
in both orders. -/
theorem C5_selection_perm_invariant_witness :
    sorted_opus_paths
        [⟨some "a.chart", some "x", some 1⟩, ⟨some "b.chart", some "y", some 2⟩] =
      sorted_opus_paths
        [⟨some "b.chart", some "y", some 2⟩, ⟨some "a.chart", some "x", some 1⟩] ∧
    pick_single_storage_path
        [⟨some "a.chart", some "x", some 1⟩, ⟨some "b.chart", some "y", some 2⟩]
        ".chart" =
      pick_single_storage_path
        [⟨some "b.chart", some "y", some 2⟩, ⟨some "a.chart", some "x", some 1⟩]
        ".chart" := by
  have h := C5_selection_perm_invariant
    [⟨some "a.chart", some "x", some 1⟩, ⟨some "b.chart", some "y", some 2⟩]
    [⟨some "b.chart", some "y", some 2⟩, ⟨some "a.chart", some "x", some 1⟩]
    (List.Perm.swap _ _ _)
  exact ⟨h.1, h.2 ".chart" (by decide)⟩

/-! ### C6 -/

/-- C6 counterexample: an audio file with no `storage_path` field is an
`.opus` candidate yet is excluded from the selected audio paths, so
"all audio files are selected" fails as stated. -/
theorem C6_counterexample_pathless_audio_excluded :
    endsWithExt ⟨some "a.opus", none, some 1⟩ ".opus" = true ∧
    sorted_opus_paths [⟨some "a.opus", none, some 1⟩] = [] :=
  ⟨by decide, by decide⟩

/-- C6 as amended: the chart/info selection returns the stripped storage
path of a candidate whose `(file size, lowercased filename)` key is
greatest among all candidates; and the audio selection enumerates the
audio files in ascending `(lowercased filename, raw storage path)` key
order, keeping exactly those with a non-empty storage path. -/
theorem C6_selection_order (files : List FileRec) :
    (∀ ext p, pick_single_storage_path files ext = some p →
      ∃ f, f ∈ files.filter (fun g => endsWithExt g ext) ∧
        p = remove_s3_uuid_pat (strOfOptStr f.storage_path) ∧
        ∀ g ∈ files.filter (fun g => endsWithExt g ext),
          intStrLeB (pickKey g) (pickKey f) = true) ∧
    (∃ l : List FileRec,
      l.Perm (files.filter (fun g => endsWithExt g ".opus")) ∧
      l.Pairwise opusRel ∧
      sorted_opus_paths files =
        (l.filter (fun f => pyTruthyOpt f.storage_path)).map
          (fun f => remove_s3_uuid_pat (strOfOptStr f.storage_path))) := by
  constructor
  · intro ext p hp
    cases hs : (files.filter (fun g => endsWithExt g ext)).insertionSort pickRel with
    | nil =>
      rw [pick_single_eq_none hs] at hp
      cases hp
    | cons b t =>
      obtain ⟨hmem, hmax⟩ := insertionSort_pick_head hs
      rw [pick_single_eq_of_sort hs] at hp
      exact ⟨b, hmem, (Option.some.inj hp).symm, hmax⟩
  · refine ⟨(files.filter (fun g => endsWithExt g ".opus")).insertionSort opusRel,
      List.perm_insertionSort _ _, List.sorted_insertionSort _ _, ?_⟩
    rw [sorted_opus_paths_def, List.map_map]
    rfl

/-- Witness for C6's amended theorem: of two chart candidates the one with
the larger file size is picked. -/
theorem C6_selection_order_witness :
    ∃ f, f ∈ ([⟨some "a.chart", some "pa", some 1⟩,
               ⟨some "b.chart", some "pb", some 2⟩] :
          List FileRec).filter (fun g => endsWithExt g ".chart") ∧
      "pb" = remove_s3_uuid_pat (strOfOptStr f.storage_path) ∧
      ∀ g ∈ ([⟨some "a.chart", some "pa", some 1⟩,
              ⟨some "b.chart", some "pb", some 2⟩] :
          List FileRec).filter (fun g => endsWithExt g ".chart"),
        intStrLeB (pickKey g) (pickKey f) = true :=
  (C6_selection_order
    [⟨some "a.chart", some "pa", some 1⟩, ⟨some "b.chart", some "pb", some 2⟩]).1
    ".chart" "pb" (by decide)

/-! ### C4 -/

theorem keepRow_eq (r : MetaRow) :
    keepRow r = (!(rowSelections r).1.isEmpty &&
      pyTruthyOpt (rowSelections r).2.1 && pyTruthyOpt (rowSelections r).2.2) :=
  rfl

/-- C4: a metadata record is kept — contributing one manifest row and
incrementing the kept counter — exactly when its filtered file list yields
a non-empty audio path selection and truthy chart and info selections;
otherwise it is dropped and counted, with the total counter incremented in
both cases.  Concretely, a directory with files
`[a.opus, b.chart, c.ini]` is kept and the same directory without
`b.chart` is dropped. -/
theorem C4_keep_drop_counts (rows : List MetaRow) :
    collect_valid_songs rows =
      ((rows.filter keepRow).map mkManifestRow, rows.length,
       (rows.filter keepRow).length,
       (rows.filter (fun r => !keepRow r)).length) ∧
    (∀ r : MetaRow, keepRow r = true ↔
      ((rowSelections r).1 ≠ [] ∧
       (∃ c, (rowSelections r).2.1 = some c ∧ c ≠ "") ∧
       (∃ c, (rowSelections r).2.2 = some c ∧ c ≠ ""))) ∧
    collect_valid_songs
        [{ dir_id := 1, dirname := "songA", file_count := 3, total_size := 3,
           files_json := [⟨some "a.opus", some "pa", some 1⟩,
                          ⟨some "b.chart", some "pb", some 1⟩,
                          ⟨some "c.ini", some "pc", some 1⟩],
           uploaded_at := ⟨2024, 1, 2, 3, 4, 5⟩ }] =
      ([{ dir_id := 1, dirname := "songA", ini_path := "pc", chart_path := "pb",
          opus_paths := ["pa"], uploaded_at := "2024-01-02 03:04:05" }], 1, 1, 0) ∧
    collect_valid_songs
        [{ dir_id := 1, dirname := "songA", file_count := 2, total_size := 2,
           files_json := [⟨some "a.opus", some "pa", some 1⟩,
                          ⟨some "c.ini", some "pc", some 1⟩],
           uploaded_at := ⟨2024, 1, 2, 3, 4, 5⟩ }] =
      ([], 1, 0, 1) := by
  refine ⟨?_, ?_, by decide, by decide⟩
  · induction rows with
    | nil => rfl
    | cons r rs ih =>
      by_cases h : keepRow r = true
      · simp only [collect_valid_songs, ih, List.filter_cons, h, if_pos,
          Bool.not_true, Bool.false_eq_true, if_false,
          List.map_cons, List.length_cons]
      · rw [Bool.not_eq_true] at h
        simp only [collect_valid_songs, ih, List.filter_cons, h,
          Bool.false_eq_true, if_false, Bool.not_false, if_pos,
          List.length_cons]
  · intro r
    rw [keepRow_eq]
    constructor
    · intro h
      simp only [Bool.and_eq_true] at h
      obtain ⟨⟨h1, h2⟩, h3⟩ := h
      refine ⟨?_, ?_, ?_⟩
      · intro h0
        rw [h0] at h1
        simp at h1
      · cases hch : (rowSelections r).2.1 with
        | none => rw [hch] at h2; simp [pyTruthyOpt] at h2
        | some c =>
          rw [hch] at h2
          exact ⟨c, rfl, by simpa [pyTruthyOpt, bne_iff_ne] using h2⟩
      · cases hii : (rowSelections r).2.2 with
        | none => rw [hii] at h3; simp [pyTruthyOpt] at h3
        | some c =>
          rw [hii] at h3
          exact ⟨c, rfl, by simpa [pyTruthyOpt, bne_iff_ne] using h3⟩
    · rintro ⟨h1, ⟨c, hc, hcne⟩, ⟨d, hd, hdne⟩⟩
      have hop : (rowSelections r).1.isEmpty = false := by
        cases hx : (rowSelections r).1 with
        | nil => exact absurd hx h1
        | cons a l => rfl
      simp [hop, hc, hd, pyTruthyOpt, bne_iff_ne, hcne, hdne]

/-! ### C10 -/

/-- C10: missing storage paths are handled asymmetrically.  An audio file
whose `storage_path` is missing or empty is excluded from the selected
audio paths (the selection keeps exactly the truthy-path audio files), so
a directory whose only audio file lacks a storage path is dropped; but
whenever the winning chart (or info) candidate — the head of the
descending sort, whatever the other candidates carry — lacks the field,
its missing value is stringified to `"None"` and a directory can be kept
with `"None"` as its chart path. -/
theorem C10_missing_storage_path_asymmetry :
    (∀ files : List FileRec,
      (sorted_opus_paths files).length =
        ((files.filter (fun g => endsWithExt g ".opus")).filter
          (fun f => pyTruthyOpt f.storage_path)).length) ∧
    (∀ (files : List FileRec) (ext : String) (b : FileRec) (t : List FileRec),
      (files.filter (fun g => endsWithExt g ext)).insertionSort pickRel = b :: t →
      b.storage_path = none →
      pick_single_storage_path files ext = some "None") ∧
    collect_valid_songs
        [{ dir_id := 1, dirname := "songA", file_count := 3, total_size := 3,
           files_json := [⟨some "a.opus", none, some 1⟩,
                          ⟨some "b.chart", some "pb", some 1⟩,
                          ⟨some "c.ini", some "pc", some 1⟩],
           uploaded_at := ⟨2024, 1, 2, 3, 4, 5⟩ }] =
      ([], 1, 0, 1) ∧
    collect_valid_songs
        [{ dir_id := 2, dirname := "songB", file_count := 3, total_size := 3,
           files_json := [⟨some "a.opus", some "pa", some 1⟩,
                          ⟨some "b.chart", none, some 1⟩,
                          ⟨some "c.ini", some "pc", some 1⟩],
           uploaded_at := ⟨2024, 1, 2, 3, 4, 5⟩ }] =
      ([{ dir_id := 2, dirname := "songB", ini_path := "pc", chart_path := "None",
          opus_paths := ["pa"], uploaded_at := "2024-01-02 03:04:05" }], 1, 1, 0) := by
  refine ⟨?_, ?_, by decide, by decide⟩
  · intro files
    rw [sorted_opus_paths_def]
    simp only [List.length_map]
    exact ((List.perm_insertionSort opusRel _).filter _).length_eq
  · intro files ext b t hs hnone
    rw [pick_single_eq_of_sort hs, hnone]
    decide

/-- Witness for C10: a pathless chart candidate that wins on file size
against a candidate that does carry a storage path — the selection still
returns the string `"None"`, not the loser's path. -/
theorem C10_missing_storage_path_asymmetry_witness :
    pick_single_storage_path
        [⟨some "big.chart", none, some 2⟩, ⟨some "small.chart", some "p", some 1⟩]
        ".chart" =
      some "None" :=
  C10_missing_storage_path_asymmetry.2.1
    [⟨some "big.chart", none, some 2⟩, ⟨some "small.chart", some "p", some 1⟩]
    ".chart" ⟨some "big.chart", none, some 2⟩
    [⟨some "small.chart", some "p", some 1⟩] (by decide) (by decide)

/-! ### C2 -/

theorem uploadFiles_error (uploadFails : String → Option String) (dirname : String)
    {bad : FileOnDisk} {e : String} (hbad : uploadFails bad.filename = some e)
    (rest : List FileOnDisk) :
    ∀ (pre : List FileOnDisk) (objs : List (String × String))
      (acc : List UploadedFile) (tot : Int),
      (∀ f ∈ pre, uploadFails f.filename = none) →
      uploadFiles uploadFails dirname (pre ++ bad :: rest) objs acc tot =
        (objs ++ pre.map (fun f =>
          ("data-collection", "collected/" ++ dirname ++ "/" ++ f.filename)),
         .error e)
  | [], objs, acc, tot, _ => by
    simp [uploadFiles, hbad]
  | f :: pre, objs, acc, tot, hpre => by
    have hf : uploadFails f.filename = none := hpre f (List.mem_cons_self f pre)
    rw [List.cons_append]
    simp only [uploadFiles, hf]
    rw [uploadFiles_error uploadFails dirname hbad rest pre _ _ _
      (fun g hg => hpre g (List.mem_cons_of_mem f hg))]
    simp [List.append_assoc]

/-- C2: if one upload in the Upload stage fails, the remaining uploads are
aborted, the claim is marked `failed`, no metadata row is stored, a fatal
error naming the directory is raised, and the files uploaded before the
failure stay in object storage. -/
theorem C2_partial_upload_failure (uploadFails : String → Option String)
    (dirname : String) (pre : List FileOnDisk) (bad : FileOnDisk)
    (rest : List FileOnDisk) (st : SysState) (now : Int) (e : String)
    (hpre : ∀ f ∈ pre, uploadFails f.filename = none)
    (hbad : uploadFails bad.filename = some e) :
    process_directory uploadFails dirname (pre ++ bad :: rest) st now =
      ({ claims := mark_directory_as_failed st.claims dirname now,
         metadata := st.metadata,
         objects := st.objects ++ pre.map (fun f =>
           ("data-collection", "collected/" ++ dirname ++ "/" ++ f.filename)) },
       .error ("Failed to process directory " ++ dirname ++ ": " ++ e)) ∧
    ∀ r ∈ st.claims, r.dirname = dirname →
      { r with status := Status.failed, completed_at := some now } ∈
        (process_directory uploadFails dirname (pre ++ bad :: rest) st now).1.claims := by
  have hup := uploadFiles_error uploadFails dirname hbad rest pre st.objects [] 0 hpre
  have heq : process_directory uploadFails dirname (pre ++ bad :: rest) st now =
      ({ claims := mark_directory_as_failed st.claims dirname now,
         metadata := st.metadata,
         objects := st.objects ++ pre.map (fun f =>
           ("data-collection", "collected/" ++ dirname ++ "/" ++ f.filename)) },
       .error ("Failed to process directory " ++ dirname ++ ": " ++ e)) := by
    unfold process_directory
    rw [hup]
  refine ⟨heq, fun r hr hd => ?_⟩
  rw [heq]
  exact mem_mark_failed hr hd

/-- Witness for C2: three files of which the second fails to upload; the
first stays in object storage, the claim flips to `failed`, no metadata
appears, and the raised error names the directory. -/
theorem C2_partial_upload_failure_witness :
    process_directory
        (fun n => if n == "bad.opus" then some "boom" else none) "songA"
        [⟨"a.opus", 3⟩, ⟨"bad.opus", 4⟩, ⟨"c.ini", 5⟩]
        ⟨[⟨"songA", 0, none, Status.processing, none⟩], [], []⟩ 9 =
      (⟨[⟨"songA", 0, some 9, Status.failed, none⟩], [],
        [("data-collection", "collected/songA/a.opus")]⟩,
       .error "Failed to process directory songA: boom") := by
  have h := C2_partial_upload_failure
    (fun n => if n == "bad.opus" then some "boom" else none) "songA"
    [⟨"a.opus", 3⟩] ⟨"bad.opus", 4⟩ [⟨"c.ini", 5⟩]
    ⟨[⟨"songA", 0, none, Status.processing, none⟩], [], []⟩ 9 "boom"
    (by decide) (by decide)
  exact h.1.trans (by rw [Prod.mk.injEq]; exact ⟨by decide, rfl⟩)

/-! ### C9 -/

theorem mark_processing_spec (st : ClaimStore) (d : String) (now : Int)
    (rid : Option String) :
    (hasRecord st d = false ∧ mark_directory_as_processing st d now rid =
      (st ++ [{ dirname := d, started_at := now, completed_at := none,
                status := Status.processing, run_id := rid }], true)) ∨
    (hasRecord st d = true ∧
      mark_directory_as_processing st d now rid = (st, false)) := by
  by_cases h : hasRecord st d = true
  · exact Or.inr ⟨h, by simp [mark_directory_as_processing, insertProcessing, h]⟩
  · rw [Bool.not_eq_true] at h
    exact Or.inl ⟨h, by simp [mark_directory_as_processing, insertProcessing, h]⟩

theorem hasRecord_eq_contains (st : ClaimStore) (d : String) :
    hasRecord st d = (get_processed_directories st).contains d := by
  rw [Bool.eq_iff_iff, hasRecord_iff]
  constructor
  · rintro ⟨r, hr, hd⟩
    exact List.elem_iff.mpr (hd ▸ List.mem_map_of_mem (fun r => r.dirname) hr)
  · intro hc
    obtain ⟨r, hr, hd⟩ := List.mem_map.mp (List.elem_iff.mp hc)
    exact ⟨r, hr, hd⟩

theorem claimBatch_all_new (now : Int) :
    ∀ (ds : List String) (st : ClaimStore),
      ds.Nodup → (∀ d ∈ ds, hasRecord st d = false) →
      claimBatch now ds st =
        (st ++ ds.map (fun d =>
          { dirname := d, started_at := now, completed_at := none,
            status := Status.processing, run_id := none }), ds) := by
  intro ds
  induction ds with
  | nil => intro st _ _; simp [claimBatch]
  | cons d ds ih =>
    intro st hnd hnew
    have hd : hasRecord st d = false := hnew d (List.mem_cons_self d ds)
    have hmark : mark_directory_as_processing st d now none =
        (st ++ [(⟨d, now, none, Status.processing, none⟩ : ClaimRecord)], true) := by
      rcases mark_processing_spec st d now none with ⟨_, h⟩ | ⟨h, _⟩
      · exact h
      · rw [hd] at h; cases h
    have hnew' : ∀ d' ∈ ds,
        hasRecord (st ++ [(⟨d, now, none, Status.processing, none⟩ : ClaimRecord)])
          d' = false := by
      intro d' hd'
      have h1 : hasRecord st d' = false := hnew d' (List.mem_cons_of_mem d hd')
      have h2 : d ≠ d' := by
        intro he
        exact (List.nodup_cons.mp hnd).1 (he ▸ hd')
      rw [hasRecord_append, h1]
      simp [hasRecord, h2]
    simp only [claimBatch, hmark]
    rw [ih _ (List.nodup_cons.mp hnd).2 hnew']
    simp [List.append_assoc]

theorem claimBatch_emitted_sublist (now : Int) :
    ∀ (ds : List String) (st : ClaimStore),
      List.Sublist (claimBatch now ds st).2 ds := by
  intro ds
  induction ds with
  | nil => intro st; simp [claimBatch]
  | cons d ds ih =>
    intro st
    simp only [claimBatch]
    rcases hma : mark_directory_as_processing st d now none with ⟨st1, ok⟩
    rcases hcb : claimBatch now ds st1 with ⟨st2, em⟩
    have hem : List.Sublist em ds := by
      have := ih st1
      rw [hcb] at this
      exact this
    cases ok
    · simpa using hem.cons d
    · simpa using hem.cons₂ d

theorem claimBatch_skips (now : Int) :
    ∀ (ds : List String) (st : ClaimStore) (d : String),
      hasRecord st d = true → d ∉ (claimBatch now ds st).2 := by
  intro ds
  induction ds with
  | nil => intro st d _; simp [claimBatch]
  | cons a ds ih =>
    intro st d hd
    simp only [claimBatch]
    rcases mark_processing_spec st a now none with ⟨hfa, heq⟩ | ⟨_, heq⟩
    · rw [heq]
      rcases hcb : claimBatch now ds
          (st ++ [(⟨a, now, none, Status.processing, none⟩ : ClaimRecord)])
        with ⟨st2, em⟩
      have hdem : d ∉ em := by
        have := ih (st ++ [(⟨a, now, none, Status.processing, none⟩ : ClaimRecord)]) d
          (by rw [hasRecord_append, hd]; rfl)
        rw [hcb] at this
        exact this
      have hda : d ≠ a := by
        intro he
        rw [he, hfa] at hd
        cases hd
      simp [hdem, hda]
    · rw [heq]
      rcases hcb : claimBatch now ds st with ⟨st2, em⟩
      have := ih st d hd
      rw [hcb] at this
      simpa using this

/-- The names a tick ends up claiming: listed subdirectories, deduplicated
(a Python set), minus the known names, sorted lexicographically, truncated
to the batch size. -/
def selectedNames (items : List DirEntry) (st : ClaimStore) (maxDirsPerRun : Nat) :
    List String :=
  ((((items.filter (fun i => i.isDir)).map (fun i => i.name)).dedup.filter
      (fun d => !(get_processed_directories st).contains d)).insertionSort
    strRel).take maxDirsPerRun

/-- C9: a tick with a missing watch root is a skip (no error, no claims);
otherwise the tick claims exactly the listed subdirectories not yet known,
sorted lexicographically and truncated to the batch size, emitting one run
request per claimed name in that order; and in the claim loop a name whose
claim returns `false` is skipped silently while the loop continues. -/
theorem C9_sensor_tick (items : List DirEntry) (maxDirsPerRun : Nat)
    (st : ClaimStore) (now : Int) :
    new_file_sensor none maxDirsPerRun st now = (st, []) ∧
    new_file_sensor (some items) maxDirsPerRun st now =
      (st ++ (selectedNames items st maxDirsPerRun).map (fun d =>
        { dirname := d, started_at := now, completed_at := none,
          status := Status.processing, run_id := none }),
       selectedNames items st maxDirsPerRun) ∧
    (∀ (ds : List String) (st' : ClaimStore),
      List.Sublist (claimBatch now ds st').2 ds ∧
      ∀ d, hasRecord st' d = true → d ∉ (claimBatch now ds st').2) := by
  refine ⟨rfl, ?_, fun ds st' =>
    ⟨claimBatch_emitted_sublist now ds st',
     fun d hd => claimBatch_skips now ds st' d hd⟩⟩
  have hsel_false : ∀ d ∈ selectedNames items st maxDirsPerRun,
      hasRecord st d = false := by
    intro d hdsel
    unfold selectedNames at hdsel
    have h2 := (List.take_sublist _ _).subset hdsel
    have h1 := (List.perm_insertionSort strRel _).subset h2
    have h3 := (List.mem_filter.mp h1).2
    rw [hasRecord_eq_contains]
    rwa [Bool.not_eq_true'] at h3
  have hnodup : (selectedNames items st maxDirsPerRun).Nodup := by
    unfold selectedNames
    apply List.Nodup.sublist (List.take_sublist _ _)
    exact ((List.perm_insertionSort strRel _).nodup_iff).mpr
      (List.Nodup.filter _ (List.nodup_dedup _))
  simp only [new_file_sensor]
  split_ifs with h1 h2
  · have hnil : ((items.filter (fun i => i.isDir)).map (fun i => i.name)).dedup = [] :=
      List.isEmpty_iff.mp h1
    unfold selectedNames
    rw [hnil]
    simp [List.insertionSort]
  · have hnil : (((items.filter (fun i => i.isDir)).map (fun i => i.name)).dedup.filter
        (fun d => !(get_processed_directories st).contains d)) = [] :=
      List.isEmpty_iff.mp h2
    unfold selectedNames
    rw [hnil]
    simp [List.insertionSort]
  · have hsorted : ((((items.filter (fun i => i.isDir)).map (fun i => i.name)).dedup.filter
        (fun d => !(get_processed_directories st).contains d)).insertionSort
        strRel).Sorted strRel :=
      List.sorted_insertionSort strRel _
    have htakeSorted := hsorted.sublist
      (List.take_sublist
        (min maxDirsPerRun
          ((((items.filter (fun i => i.isDir)).map (fun i => i.name)).dedup.filter
            (fun d => !(get_processed_directories st).contains d))).length) _)
    rw [List.Sorted.insertionSort_eq htakeSorted]
    have hlen : ((((items.filter (fun i => i.isDir)).map (fun i => i.name)).dedup.filter
        (fun d => !(get_processed_directories st).contains d)).insertionSort
        strRel).length =
        (((items.filter (fun i => i.isDir)).map (fun i => i.name)).dedup.filter
          (fun d => !(get_processed_directories st).contains d)).length :=
      (List.perm_insertionSort strRel _).length_eq
    have hminEq : ((((items.filter (fun i => i.isDir)).map (fun i => i.name)).dedup.filter
        (fun d => !(get_processed_directories st).contains d)).insertionSort
        strRel).take
          (min maxDirsPerRun
            ((((items.filter (fun i => i.isDir)).map (fun i => i.name)).dedup.filter
              (fun d => !(get_processed_directories st).contains d))).length) =
        ((((items.filter (fun i => i.isDir)).map (fun i => i.name)).dedup.filter
          (fun d => !(get_processed_directories st).contains d)).insertionSort
          strRel).take maxDirsPerRun := by
      apply List.take_eq_take.mpr
      rw [hlen, min_assoc, min_self]
    rw [hminEq]
    exact claimBatch_all_new now (selectedNames items st maxDirsPerRun) st hnodup
      hsel_false

/-- Witness for C9: a tick over a listing with one non-directory entry and
one already-known directory claims the two fresh directories in sorted
order; in the claim loop an already-recorded name is skipped. -/
theorem C9_sensor_tick_witness :
    new_file_sensor
        (some [⟨"b", true⟩, ⟨"a", true⟩, ⟨"x", false⟩, ⟨"known", true⟩]) 2
        [⟨"known", 0, none, Status.completed, none⟩] 5 =
      ([⟨"known", 0, none, Status.completed, none⟩,
        ⟨"a", 5, none, Status.processing, none⟩,
        ⟨"b", 5, none, Status.processing, none⟩], ["a", "b"]) ∧
    "known" ∉ (claimBatch 5 ["known", "fresh"]
      [⟨"known", 0, none, Status.completed, none⟩]).2 := by
  have h := C9_sensor_tick [⟨"b", true⟩, ⟨"a", true⟩, ⟨"x", false⟩, ⟨"known", true⟩]
    2 [⟨"known", 0, none, Status.completed, none⟩] 5
  exact ⟨h.2.1.trans (by decide),
    (h.2.2 ["known", "fresh"] [⟨"known", 0, none, Status.completed, none⟩]).2
      "known" (by decide)⟩

end KlangScribe
